import Mathlib

/-!
Verification of the generic SQL command layer of `noiddea-dash`
(`src-tauri/src/db.rs`): the JSON value bridge (`json_to_params`,
`row_to_json`), the lazily-initialized singleton connection
(`DatabaseState::get_connection`) and the data-access commands
(`db_query`, `db_execute`, `db_exec`, `db_transaction`).

The Rust code is embedded shallowly:

* `serde_json::Value` becomes the inductive `JValue`; a `serde_json::Number`
  is either an integer (the `PosInt`/`NegInt` variants, an integer in
  `[-2^63, 2^64)`) or a finite double (the `Float` variant, which
  `serde_json` guarantees finite).  Finite doubles carry no arithmetic in
  this layer, only pass-through, so their payload is modelled as `Rat`.
* `rusqlite::types::Value` becomes `SqlValue`; a raw SQLite float column
  may additionally be NaN or ±infinity, hence the `F64` carrier.
* The SQLite engine, the filesystem and the Tauri path resolver are
  abstracted into records of fallible operations (`Engine`, `ConnEnv`)
  over an abstract database-state type; the Rust functions become total
  Lean functions parameterized by them, with `Result<T, String>` embedded
  as `Except String T` and every `format!` error message reproduced.
-/

namespace Noiddea

/-- A 64-bit IEEE double as it can come out of a raw SQLite `REAL` column:
finite (payload modelled as an exact rational, since this layer never does
float arithmetic, only pass-through), NaN, or ±infinity. -/
inductive F64 where
  | finite (q : Rat)
  | nan
  | inf
  | neginf
deriving DecidableEq, Repr

/-- `serde_json::Number`: `PosInt(u64)` / `NegInt(i64)` collapse to `int v`
with the representation invariant `-2^63 ≤ v < 2^64`; `Float(f64)` is
`float q` and is always finite (`serde_json::Number::from_f64` rejects
NaN/infinity, and JSON text has no such literals). -/
inductive JNumber where
  | int (v : Int)
  | float (q : Rat)
deriving DecidableEq, Repr

/-- `serde_json::Value`.  Objects are modelled as insertion-ordered
association lists (see `mapInsert`). -/
inductive JValue where
  | null
  | bool (b : Bool)
  | num (n : JNumber)
  | str (s : String)
  | arr (elems : List JValue)
  | obj (fields : List (String × JValue))
deriving Repr

/-- Structural equality for `JValue` (used only to state theorems and run
witnesses; `deriving DecidableEq` does not handle the nested recursion). -/
def JValue.beq : JValue → JValue → Bool
  | .null, .null => true
  | .bool a, .bool b => a == b
  | .num a, .num b => a == b
  | .str a, .str b => a == b
  | .arr a, .arr b => beqList a b
  | .obj a, .obj b => beqFields a b
  | _, _ => false
where
  beqList : List JValue → List JValue → Bool
    | [], [] => true
    | x :: xs, y :: ys => x.beq y && beqList xs ys
    | _, _ => false
  beqFields : List (String × JValue) → List (String × JValue) → Bool
    | [], [] => true
    | (k, x) :: xs, (l, y) :: ys => k == l && x.beq y && beqFields xs ys
    | _, _ => false

/-- The representation invariant of a `serde_json` integer number:
`PosInt` holds a `u64`, `NegInt` a negative `i64`. -/
def JNumber.intInvariant (v : Int) : Prop := -(2 ^ 63) ≤ v ∧ v < 2 ^ 64

/-- `rusqlite::types::Value`: the five SQLite storage classes. -/
inductive SqlValue where
  | null
  | integer (i : Int)
  | real (f : F64)
  | text (s : String)
  | blob (b : List UInt8)
deriving DecidableEq, Repr

/-- The bind values produced by `json_to_params`: each boxed
`dyn rusqlite::ToSql` is one of `None::<String>`, `bool`, `i64`, `f64`
or `String`. -/
inductive BindValue where
  | null
  | bool (b : Bool)
  | int (i : Int)
  | float (q : Rat)
  | text (s : String)
deriving DecidableEq, Repr

/-- Decimal rendering of a number for `jsonSerialize`.  Models the
`serde_json` integer / `ryu` float renderings; the exact digits of the
float case are irrelevant to every claim, so a float renders as the
rational's standard decimal form. -/
def JNumber.render : JNumber → String
  | .int v => toString v
  | .float q => toString q

/-- JSON string escaping as `serde_json` performs it for the characters
that require it (quote, backslash, control characters). -/
def jsonEscapeChar (c : Char) : String :=
  if c = '"' then "\\\""
  else if c = '\\' then "\\\\"
  else if c = '\n' then "\\n"
  else if c = '\r' then "\\r"
  else if c = '\t' then "\\t"
  else if c.val < 32 then "\\u" ++ (Nat.toDigits 16 c.toNat).asString
  else String.singleton c

/-- `serde_json::to_string`: the canonical compact serialization of a
JSON value. -/
def jsonSerialize : JValue → String
  | .null => "null"
  | .bool true => "true"
  | .bool false => "false"
  | .num n => n.render
  | .str s => "\"" ++ String.join (s.toList.map jsonEscapeChar) ++ "\""
  | .arr elems => "[" ++ serArr elems ++ "]"
  | .obj fields => "\x7b" ++ serObj fields ++ "\x7d"
where
  serArr : List JValue → String
    | [] => ""
    | [x] => jsonSerialize x
    | x :: rest => jsonSerialize x ++ "," ++ serArr rest
  serObj : List (String × JValue) → String
    | [] => ""
    | [(k, v)] => serField k v
    | (k, v) :: rest => serField k v ++ "," ++ serObj rest
  serField (k : String) (v : JValue) : String :=
    "\"" ++ String.join (k.toList.map jsonEscapeChar) ++ "\":" ++ jsonSerialize v

/-- `serde_json::Number::is_i64`: true for `NegInt` (always) and for
`PosInt` values not exceeding `i64::MAX`; under the representation
invariant this is exactly `v ≤ 2^63 - 1`.  Never true for `Float`. -/
def JNumber.isI64 : JNumber → Bool
  | .int v => v ≤ 2 ^ 63 - 1
  | .float _ => false

/-- One arm of `json_to_params` (`db.rs` lines 95-115): the conversion of a
single `serde_json::Value` to a boxed bind value.  The number branch tries
`is_i64`/`as_i64`, then `is_u64`/`as_u64() as i64` — the `as i64` cast is
two's-complement wrapping, so a `u64` above `i64::MAX` becomes `v - 2^64` —
and otherwise binds `as_f64`.  Arrays and objects bind
`serde_json::to_string(v)`. -/
def jsonToParam : JValue → BindValue
  | .null => .null
  | .bool b => .bool b
  | .num (.int v) => if v ≤ 2 ^ 63 - 1 then .int v else .int (v - 2 ^ 64)
  | .num (.float q) => .float q
  | .str s => .text s
  | .arr elems => .text (jsonSerialize (.arr elems))
  | .obj fields => .text (jsonSerialize (.obj fields))

/-- `json_to_params` (`db.rs` lines 92-118): maps the conversion over the
parameter slice. -/
def json_to_params (params : List JValue) : List BindValue :=
  params.map jsonToParam

/-- `rusqlite`'s `ToSql` encoding of each bind value into a SQLite storage
value: `None::<String>` → NULL, `bool` → INTEGER 1/0, `i64` → INTEGER,
`f64` → REAL, `String` → TEXT. -/
def BindValue.store : BindValue → SqlValue
  | .null => .null
  | .bool b => .integer (if b then 1 else 0)
  | .int i => .integer i
  | .float q => .real (.finite q)
  | .text s => .text s

/-- The per-column conversion inside `row_to_json` (`db.rs` lines 125-135):
NULL → `Value::Null`, INTEGER → `Number(i)`, REAL →
`Number::from_f64(f).unwrap_or(0.into())` (so NaN/±infinity become the
number 0), TEXT → `String`, BLOB of `n` bytes → the string
`"[BLOB:<n> bytes]"`. -/
def sqlValueToJson : SqlValue → JValue
  | .null => .null
  | .integer i => .num (.int i)
  | .real (.finite q) => .num (.float q)
  | .real .nan => .num (.int 0)
  | .real .inf => .num (.int 0)
  | .real .neginf => .num (.int 0)
  | .text s => .str s
  | .blob b => .str ("[BLOB:" ++ toString b.length ++ " bytes]")

/-- Modelled from the spec: insertion into the `serde_json::Map` backing a
row object.  The map implementation is selected by a cargo feature flag in
a manifest that is not part of the sources; the spec fixes the observable
behaviour ("column order preserved; column name collisions resolve
last-write-wins"), i.e. an insertion-ordered map whose `insert` replaces
the value of an existing key in place. -/
def mapInsert (m : List (String × JValue)) (k : String) (v : JValue) :
    List (String × JValue) :=
  match m with
  | [] => [(k, v)]
  | (k', v') :: rest =>
    if k' = k then (k', v) :: rest else (k', v') :: mapInsert rest k v

/-- The loop of `row_to_json` (`db.rs` lines 123-137): for each column name
at index `idx`, `row.get(idx)` fetches the raw storage value (failing with
rusqlite's `InvalidColumnIndex` error when the index is out of range — the
only fallible step), converts it, and inserts it under the column name. -/
def rowToJsonGo (raw : List SqlValue) :
    List String → Nat → List (String × JValue) →
    Except String (List (String × JValue))
  | [], _, m => .ok m
  | name :: rest, idx, m =>
    match raw[idx]? with
    | none => .error ("Invalid column index: " ++ toString idx)
    | some v => rowToJsonGo raw rest (idx + 1) (mapInsert m name (sqlValueToJson v))

/-- `row_to_json` (`db.rs` lines 121-139): builds the JSON object for one
row from the column-name list and the raw column values. -/
def row_to_json (raw : List SqlValue) (columnNames : List String) :
    Except String JValue :=
  (rowToJsonGo raw columnNames 0 []).map JValue.obj

/-- Key lookup in the association list backing an object (field access in
the map behind `serde_json::Map::get`). -/
def lookupField : List (String × JValue) → String → Option JValue
  | [], _ => none
  | (k', v) :: rest, k => if k' = k then some v else lookupField rest k

/-- `serde_json::Value::get(key)`: map lookup on an object, `None` on every
other variant. -/
def JValue.getKey : JValue → String → Option JValue
  | .obj fields, k => lookupField fields k
  | _, _ => none

/-- `serde_json::Value::as_str`. -/
def JValue.asStr : JValue → Option String
  | .str s => some s
  | _ => none

/-- `serde_json::Value::as_array`. -/
def JValue.asArr : JValue → Option (List JValue)
  | .arr elems => some elems
  | _ => none

/-- Rust `char::is_whitespace`: the Unicode `White_Space` property. -/
def rustIsWhitespace (c : Char) : Bool :=
  let n := c.toNat
  (0x09 ≤ n && n ≤ 0x0D) || n == 0x20 || n == 0x85 || n == 0xA0 ||
  n == 0x1680 || (0x2000 ≤ n && n ≤ 0x200A) || n == 0x2028 || n == 0x2029 ||
  n == 0x202F || n == 0x205F || n == 0x3000

/-- Rust `str::trim_start`: drop leading `White_Space` characters
(operating on the string's character list). -/
def trimStartChars : List Char → List Char
  | [] => []
  | c :: rest => if rustIsWhitespace c then trimStartChars rest else c :: rest

/-- Rust `str::starts_with` on character lists. -/
def charsStartWith : List Char → List Char → Bool
  | _, [] => true
  | [], _ :: _ => false
  | a :: as, b :: bs => a == b && charsStartWith as bs

/-- The SELECT heuristic of `db_transaction` (`db.rs` lines 289-290):
`sql.trim_start().to_uppercase().starts_with("SELECT")`.  Strings are
handled as their character lists; `to_uppercase` is modelled on its ASCII
fragment (`Char.toUpper`) — no claim exercises the non-ASCII special cases
of Unicode uppercasing. -/
def isSelectSql (sql : String) : Bool :=
  charsStartWith ((trimStartChars sql.data).map Char.toUpper) "SELECT".data

/-- `DatabaseResult` (`db.rs` lines 6-11): the envelope every command wraps
successful data in. -/
structure DatabaseResult (T : Type) where
  success : Bool
  data : Option T
  error : Option String
deriving Repr

/-- `DatabaseResult::success` (`db.rs` lines 14-20); named `mkSuccess`
because the field `success` takes the source name. -/
def DatabaseResult.mkSuccess {T : Type} (data : T) : DatabaseResult T :=
  { success := true, data := some data, error := none }

/-- `DatabaseResult::error` (`db.rs` lines 22-29, `#[allow(dead_code)]` —
it has no caller anywhere in the crate); named `mkError` because `error`
is the field name. -/
def DatabaseResult.mkError {T : Type} (error : String) : DatabaseResult T :=
  { success := false, data := none, error := some error }

/-- The SQLite engine behind a prepared connection, abstracted as fallible
operations over an abstract database state `σ`.  `prepare` yields the
statement's column names (`stmt.column_name(i).unwrap_or("")` is total);
`query` yields, per row, either that row's fetch error or its raw column
values; `exec` yields the new state and the changed-row count; `begin` and
`commit` model `Connection::transaction()` and `Transaction::commit`.
Errors are the `Display` strings the Rust code interpolates. -/
structure Engine (σ : Type) where
  prepare : σ → String → Except String (List String)
  query : σ → String → List BindValue → Except String (List (Except String (List SqlValue)))
  exec : σ → String → List BindValue → Except String (σ × Nat)
  execBatch : σ → String → Except String σ
  lastInsertRowid : σ → Int
  begin : σ → Except String Unit
  commit : σ → Except String σ

/-- One item of the `query_map` cursor as the commands consume it: the raw
row fetch composed with `row_to_json`, with the failure wrapped as
`format!("Row parsing error: {}", e)`. -/
def decodeRow (columnNames : List String) (r : Except String (List SqlValue)) :
    Except String JValue :=
  (r.bind fun raw => row_to_json raw columnNames).mapError
    (fun e => "Row parsing error: " ++ e)

/-- The row-collection loop shared by `db_query` (lines 191-194) and the
SELECT branch of `db_transaction` (lines 304-307): push each decoded row,
aborting on the first failure. -/
def collectRows (columnNames : List String) :
    List (Except String (List SqlValue)) → Except String (List JValue)
  | [] => .ok []
  | r :: rest => do
    let v ← decodeRow columnNames r
    let vs ← collectRows columnNames rest
    .ok (v :: vs)

/-- `db_query` (`db.rs` lines 160-197), given the already-acquired
connection: prepare, read column names, bind via `json_to_params`, run the
query, materialize all rows; every failure returns as the command's
top-level `Err` string. -/
def db_query (E : Engine σ) (s : σ) (sql : String) (params : List JValue) :
    Except String (DatabaseResult (List JValue)) := do
  let columnNames ← (E.prepare s sql).mapError (fun e => "SQL prepare error: " ++ e)
  let paramVec := json_to_params params
  let rows ← (E.query s sql paramVec).mapError (fun e => "SQL query error: " ++ e)
  let results ← collectRows columnNames rows
  .ok (DatabaseResult.mkSuccess results)

/-- `db_execute` (`db.rs` lines 199-232), given the connection: prepare,
execute, and report `{changes, lastInsertRowid}`.  The pair's first
component is the database state after the call (unchanged when the call
fails, since the single statement took no effect). -/
def db_execute (E : Engine σ) (s : σ) (sql : String) (params : List JValue) :
    σ × Except String (DatabaseResult JValue) :=
  match (E.prepare s sql).mapError (fun e => "SQL prepare error: " ++ e) with
  | .error e => (s, .error e)
  | .ok _columnNames =>
    match (E.exec s sql (json_to_params params)).mapError
        (fun e => "SQL execute error: " ++ e) with
    | .error e => (s, .error e)
    | .ok (s', changes) =>
      (s', .ok (DatabaseResult.mkSuccess (.obj
        [("changes", .num (.int changes)),
         ("lastInsertRowid", .num (.int (E.lastInsertRowid s')))])))

/-- `db_exec` (`db.rs` lines 234-249), given the connection:
`execute_batch` of a multi-statement script. -/
def db_exec (E : Engine σ) (s : σ) (sql : String) :
    σ × Except String (DatabaseResult Unit) :=
  match E.execBatch s sql with
  | .error e => (s, .error ("SQL exec error: " ++ e))
  | .ok s' => (s', .ok (DatabaseResult.mkSuccess ()))

/-- Extraction of the statement text from one transaction member
(`db.rs` lines 270-274): `query_obj.get("sql").and_then(|v| v.as_str())`,
failing with `"Missing 'sql' in query object"` when absent. -/
def extractSql (queryObj : JValue) : Option String :=
  (queryObj.getKey "sql").bind JValue.asStr

/-- Extraction of the parameter list from one transaction member
(`db.rs` lines 276-280): `get("params").and_then(|v| v.as_array())`,
defaulting to the empty list (`unwrap_or_default`). -/
def extractParams (queryObj : JValue) : List JValue :=
  ((queryObj.getKey "params").bind JValue.asArr).getD []

/-- The body of one iteration of the `db_transaction` loop after the `sql`
text is in hand (`db.rs` lines 282-315): prepare, bind, then either
materialize rows (SELECT heuristic) into an array result or execute and
record a null result. -/
def runStmtCore (E : Engine σ) (s : σ) (sql : String) (params : List JValue) :
    Except String (σ × JValue) := do
  let columnNames ← (E.prepare s sql).mapError (fun e => "SQL prepare error: " ++ e)
  let paramVec := json_to_params params
  if isSelectSql sql then do
    let rows ← (E.query s sql paramVec).mapError (fun e => "SQL query error: " ++ e)
    let queryResults ← collectRows columnNames rows
    .ok (s, .arr queryResults)
  else do
    let r ← (E.exec s sql paramVec).mapError (fun e => "SQL execute error: " ++ e)
    .ok (r.1, .null)

/-- One full iteration of the `db_transaction` loop (`db.rs` lines
269-316), object decoding included. -/
def runStmt (E : Engine σ) (s : σ) (queryObj : JValue) :
    Except String (σ × JValue) :=
  match extractSql queryObj with
  | none => .error "Missing 'sql' in query object"
  | some sql => runStmtCore E s sql (extractParams queryObj)

/-- The `db_transaction` loop over all members, threading the
transaction-local database state and accumulating the per-statement
results in submission order. -/
def runQueries (E : Engine σ) : σ → List JValue → Except String (σ × List JValue)
  | s, [] => .ok (s, [])
  | s, q :: qs => do
    let (s', r) ← runStmt E s q
    let (s'', rs) ← runQueries E s' qs
    .ok (s'', r :: rs)

/-- `db_transaction` without the rollback accounting: begin, run every
member, commit (`db.rs` lines 263-321). -/
def db_transactionAux (E : Engine σ) (s0 : σ) (queries : List JValue) :
    Except String (σ × List JValue) := do
  let _ ← (E.begin s0).mapError (fun e => "Transaction start error: " ++ e)
  let (s1, results) ← runQueries E s0 queries
  let s2 ← (E.commit s1).mapError (fun e => "Transaction commit error: " ++ e)
  .ok (s2, results)

/-- `db_transaction` (`db.rs` lines 251-322), given the connection.  The
first component is the database state visible after the call: on any
failure the `rusqlite::Transaction` is dropped uncommitted, which rolls
every member's effect back to the state before `BEGIN`. -/
def db_transaction (E : Engine σ) (s0 : σ) (queries : List JValue) :
    σ × Except String (DatabaseResult (List JValue)) :=
  match db_transactionAux E s0 queries with
  | .ok (s', results) => (s', .ok (DatabaseResult.mkSuccess results))
  | .error e => (s0, .error e)

/-- The environment `DatabaseState::get_connection` touches while opening:
Tauri path resolution, the filesystem, `Connection::open`, and the three
initialization pragmas (`κ` is the abstract connection type).
`pragmaJournalModeWal` is `query_row("PRAGMA journal_mode = WAL")` and
yields the mode the engine reports; `pragmaForeignKeysOn` and
`pragmaCacheSize` yield `execute`'s changed-row count. -/
structure ConnEnv (κ : Type) where
  appDataDir : Except String String
  createDirAll : String → Except String Unit
  openDb : String → Except String κ
  pragmaJournalModeWal : κ → Except String String
  pragmaForeignKeysOn : κ → Except String Nat
  pragmaCacheSize : κ → Except String Nat

/-- The initialization sequence of `get_connection` (`db.rs` lines 49-83),
run only when no connection is stored: resolve and create the data
directory, open `database.db`, require the reported journal mode to be
`"wal"` (ASCII `to_lowercase`), require foreign-key enforcement, and run
the cache-size pragma with its result discarded (`unwrap_or_default`). -/
def openSequence (env : ConnEnv κ) : Except String κ := do
  let appDataDir ← env.appDataDir.mapError
    (fun e => "Could not get app data directory: " ++ e)
  let _ ← (env.createDirAll appDataDir).mapError
    (fun e => "Could not create app data directory: " ++ e)
  let dbPath := appDataDir ++ "/database.db"
  let conn ← (env.openDb dbPath).mapError (fun e => "Could not open database: " ++ e)
  let journalMode ← (env.pragmaJournalModeWal conn).mapError
    (fun e => "Could not set WAL mode: " ++ e)
  if journalMode.data.map Char.toLower ≠ "wal".data then
    .error ("Failed to set WAL mode, got: " ++ journalMode)
  else do
    let _ ← (env.pragmaForeignKeysOn conn).mapError
      (fun e => "Could not enable foreign keys: " ++ e)
    let _ := env.pragmaCacheSize conn
    .ok conn

/-- `DatabaseState::get_connection` (`db.rs` lines 43-88) acting on the
guarded `Option<Connection>` cell: an already-stored connection is
returned untouched; otherwise the open sequence runs, storing the new
connection on success and leaving the cell `None` on failure. -/
def get_connection (env : ConnEnv κ) (stored : Option κ) :
    Except String κ × Option κ :=
  match stored with
  | some conn => (.ok conn, some conn)
  | none =>
    match openSequence env with
    | .ok conn => (.ok conn, some conn)
    | .error e => (.error e, none)

/-! ### Generic plumbing lemmas for `Except` -/

theorem bind_eq_error {α β : Type} {x : Except String α} {f : α → Except String β}
    {e : String} (h : x.bind f = .error e) :
    x = .error e ∨ ∃ a, x = .ok a ∧ f a = .error e := by
  cases x with
  | error e' =>
    left
    cases h
    rfl
  | ok a =>
    right
    exact ⟨a, rfl, h⟩

theorem bind_eq_ok {α β : Type} {x : Except String α} {f : α → Except String β}
    {b : β} (h : x.bind f = .ok b) : ∃ a, x = .ok a ∧ f a = .ok b := by
  cases x with
  | error e' => cases h
  | ok a => exact ⟨a, rfl, h⟩

theorem mapError_eq_error {α : Type} {x : Except String α}
    {g : String → String} {e : String} (h : x.mapError g = .error e) :
    ∃ e', x = .error e' ∧ e = g e' := by
  cases x with
  | error e' =>
    refine ⟨e', rfl, ?_⟩
    cases h
    rfl
  | ok a => cases h

theorem mapError_eq_ok {α : Type} {x : Except String α}
    {g : String → String} {a : α} (h : x.mapError g = .ok a) : x = .ok a := by
  cases x with
  | error e' => cases h
  | ok a' => cases h; rfl

theorem appendLeft_ne_empty (p e : String) (hp : p.length ≠ 0) : p ++ e ≠ "" := by
  intro h
  have hl : (p ++ e).length = 0 := by rw [h]; rfl
  rw [String.length_append] at hl
  omega

/-! ### C9: the NaN/infinity sentinel -/

/-- C9: the sentinel `row_to_json` substitutes for a REAL column whose
value is NaN or ±infinity (`Number::from_f64(f).unwrap_or(0.into())`) is
exactly the number 0. -/
theorem C9_nonfinite_real_sentinel_is_zero :
    sqlValueToJson (.real .nan) = .num (.int 0) ∧
    sqlValueToJson (.real .inf) = .num (.int 0) ∧
    sqlValueToJson (.real .neginf) = .num (.int 0) :=
  ⟨rfl, rfl, rfl⟩

/-! ### C4: `json_to_params` variant mapping -/

/-- C4 counterexample: the claim says integer values exceeding the signed
64-bit range are "rejected or clamped (never silently wrapped)", but
`json_to_params` converts the `u64` number `2^64 - 1` with `as i64`, a
two's-complement wrap, binding the integer `-1` — neither a rejection nor
a clamp to `i64::MAX`. -/
theorem C4_counterexample :
    json_to_params [.num (.int (2 ^ 64 - 1))] = [.int (-1)] ∧
    JNumber.intInvariant (2 ^ 64 - 1) ∧
    ¬ (2 ^ 64 - 1 : Int) ≤ 2 ^ 63 - 1 := by
  refine ⟨?_, ⟨by norm_num, by norm_num⟩, by norm_num⟩
  show [jsonToParam (.num (.int (2 ^ 64 - 1)))] = [.int (-1)]
  rw [jsonToParam]
  norm_num

/-- C4 (amended): `json_to_params` maps Null to NULL, Boolean to a native
boolean bind value, an integer number within the signed 64-bit range to
that `i64`, an integer number above the range (a `u64` above `i64::MAX`)
to its two's-complement wrap `v - 2^64` (not a rejection or clamp), a
non-integer number to a 64-bit float, String to text, and Array/Object to
their serialized JSON text. -/
theorem C4_json_to_params_mapping (b : Bool) (v : Int) (q : Rat) (s : String)
    (xs : List JValue) (fs : List (String × JValue)) :
    json_to_params [.null] = [.null]
  ∧ json_to_params [.bool b] = [.bool b]
  ∧ (v ≤ 2 ^ 63 - 1 → json_to_params [.num (.int v)] = [.int v])
  ∧ (¬ v ≤ 2 ^ 63 - 1 → json_to_params [.num (.int v)] = [.int (v - 2 ^ 64)])
  ∧ json_to_params [.num (.float q)] = [.float q]
  ∧ json_to_params [.str s] = [.text s]
  ∧ json_to_params [.arr xs] = [.text (jsonSerialize (.arr xs))]
  ∧ json_to_params [.obj fs] = [.text (jsonSerialize (.obj fs))] := by
  refine ⟨rfl, rfl, ?_, ?_, rfl, rfl, rfl, rfl⟩
  · intro h
    show [jsonToParam (.num (.int v))] = [.int v]
    rw [jsonToParam, if_pos h]
  · intro h
    show [jsonToParam (.num (.int v))] = [.int (v - 2 ^ 64)]
    rw [jsonToParam, if_neg h]

theorem C4_json_to_params_mapping_witness :
    json_to_params [.num (.int 42)] = [.int 42] ∧
    json_to_params [.num (.int (2 ^ 63))] = [.int (2 ^ 63 - 2 ^ 64)] :=
  ⟨(C4_json_to_params_mapping true 42 0 "" [] []).2.2.1 (by norm_num),
   (C4_json_to_params_mapping true (2 ^ 63) 0 "" [] []).2.2.2.1 (by norm_num)⟩

/-! ### C6: bind / read-back round trip -/

/-- C6 counterexample: a Boolean is bound through `json_to_params` as a
native boolean, which rusqlite stores as the SQLite INTEGER 1/0; reading
it back through `row_to_json` therefore yields the number 1, not the
boolean `true` — the value's data content is re-typed, not reconstructed. -/
theorem C6_counterexample :
    sqlValueToJson ((jsonToParam (.bool true)).store) = .num (.int 1) ∧
    sqlValueToJson ((jsonToParam (.bool true)).store) ≠ .bool true := by
  refine ⟨rfl, fun h => ?_⟩
  rw [show jsonToParam (.bool true) = .bool true from rfl] at h
  cases h

/-- C6 (amended): binding `[v]` through `json_to_params` and reading the
stored value back through `row_to_json`'s column conversion reconstructs
`v` exactly when `v` is Null, an Integer within the signed 64-bit range, a
Float, or a String; a Boolean comes back as the number 1 or 0 (its SQLite
integer encoding), not as a boolean. -/
theorem C6_bind_read_roundtrip (b : Bool) (v : Int) (q : Rat) (s : String)
    (hlo : -(2 ^ 63) ≤ v) (hhi : v ≤ 2 ^ 63 - 1) :
    sqlValueToJson ((jsonToParam .null).store) = .null
  ∧ sqlValueToJson ((jsonToParam (.num (.int v))).store) = .num (.int v)
  ∧ sqlValueToJson ((jsonToParam (.num (.float q))).store) = .num (.float q)
  ∧ sqlValueToJson ((jsonToParam (.str s)).store) = .str s
  ∧ sqlValueToJson ((jsonToParam (.bool b)).store)
      = .num (.int (if b then 1 else 0)) := by
  refine ⟨rfl, ?_, rfl, rfl, ?_⟩
  · rw [jsonToParam, if_pos hhi]
    rfl
  · cases b <;> rfl

theorem C6_bind_read_roundtrip_witness :
    sqlValueToJson ((jsonToParam (.num (.int 7))).store) = .num (.int 7) ∧
    sqlValueToJson ((jsonToParam (.str "ok")).store) = .str "ok" :=
  ⟨(C6_bind_read_roundtrip true 7 0 "" (by norm_num) (by norm_num)).2.1,
   (C6_bind_read_roundtrip true 7 0 "ok" (by norm_num) (by norm_num)).2.2.2.1⟩

/-! ### C7: shape of the object `row_to_json` builds -/

/-- The key sequence of a row object: column names in map order. -/
def mapKeys (m : List (String × JValue)) : List String := m.map Prod.fst

/-- First occurrences of `cols`, in column order: the key sequence an
insertion-ordered map acquires when fed `cols` left to right. -/
def firstDedup : List String → List String
  | [] => []
  | k :: rest => k :: firstDedup (rest.filter fun k' => k' != k)
termination_by l => l.length
decreasing_by
  simp only [List.length_cons]
  exact Nat.lt_succ_of_le (List.length_filter_le _ _)

/-- Position of the last occurrence of `k` in `cols`, if any. -/
def lastIdxIn (cols : List String) (k : String) : Option Nat :=
  match cols with
  | [] => none
  | c :: rest =>
    match lastIdxIn rest k with
    | some j => some (j + 1)
    | none => if c = k then some 0 else none

theorem mapKeys_nil : mapKeys [] = [] := rfl

theorem mapKeys_cons (a : String) (b : JValue) (rest : List (String × JValue)) :
    mapKeys ((a, b) :: rest) = a :: mapKeys rest := rfl

theorem mapKeys_mapInsert_mem (m : List (String × JValue)) (k : String)
    (v : JValue) (h : k ∈ mapKeys m) : mapKeys (mapInsert m k v) = mapKeys m := by
  induction m with
  | nil => simp [mapKeys_nil] at h
  | cons p rest ih =>
    obtain ⟨a, b⟩ := p
    rw [mapKeys_cons] at h
    by_cases ha : a = k
    · simp [mapInsert, ha, mapKeys_cons]
    · have hm : k ∈ mapKeys rest := by
        rcases List.mem_cons.mp h with h' | h'
        · exact absurd h'.symm ha
        · exact h'
      simp [mapInsert, ha, mapKeys_cons, ih hm]

theorem mapKeys_mapInsert_not_mem (m : List (String × JValue)) (k : String)
    (v : JValue) (h : k ∉ mapKeys m) :
    mapKeys (mapInsert m k v) = mapKeys m ++ [k] := by
  induction m with
  | nil => rfl
  | cons p rest ih =>
    obtain ⟨a, b⟩ := p
    rw [mapKeys_cons] at h
    have ha : a ≠ k := fun hak => h (hak ▸ List.mem_cons_self _ _)
    have hrest : k ∉ mapKeys rest := fun hm => h (List.mem_cons_of_mem _ hm)
    simp [mapInsert, ha, mapKeys_cons, ih hrest]

theorem lookupField_mapInsert_self (m : List (String × JValue)) (k : String)
    (v : JValue) : lookupField (mapInsert m k v) k = some v := by
  induction m with
  | nil => simp [mapInsert, lookupField]
  | cons p rest ih =>
    obtain ⟨a, b⟩ := p
    by_cases ha : a = k
    · simp [mapInsert, ha, lookupField]
    · simp [mapInsert, ha, lookupField, ih]

theorem lookupField_mapInsert_ne (m : List (String × JValue)) (k : String)
    (v : JValue) (k' : String) (h : k' ≠ k) :
    lookupField (mapInsert m k v) k' = lookupField m k' := by
  induction m with
  | nil =>
    have hks : k ≠ k' := Ne.symm h
    simp [mapInsert, lookupField, hks]
  | cons p rest ih =>
    obtain ⟨a, b⟩ := p
    by_cases ha : a = k
    · have hks : k ≠ k' := fun e => h e.symm
      simp [mapInsert, ha, lookupField, hks]
    · by_cases ha' : a = k'
      · simp [mapInsert, ha, lookupField, ha', h]
      · simp [mapInsert, ha, lookupField, ha', ih]

theorem firstDedup_filter (p : String → Bool) (l : List String) :
    firstDedup (l.filter p) = (firstDedup l).filter p := by
  induction l using firstDedup.induct with
  | case1 => simp [firstDedup]
  | case2 k rest ih =>
    by_cases hpk : p k = true
    · rw [List.filter_cons_of_pos hpk, firstDedup, firstDedup,
        List.filter_cons_of_pos hpk]
      refine congrArg (k :: ·) ?_
      rw [← ih, List.filter_filter, List.filter_filter]
      exact congrArg firstDedup (List.filter_congr fun a _ => Bool.and_comm _ _)
    · have hpk' : p k = false := by simpa using hpk
      rw [List.filter_cons_of_neg (by simp [hpk']), firstDedup,
        List.filter_cons_of_neg (by simp [hpk']), ← ih,
        List.filter_filter]
      refine congrArg firstDedup (List.filter_congr fun a _ => ?_)
      by_cases ha : a = k
      · subst ha
        simp [hpk']
      · simp [bne_iff_ne.mpr ha]

/-- Full characterization of the `row_to_json` loop: given enough columns
in the raw row, it succeeds, its key sequence extends the accumulator's
keys with the first occurrences of the remaining column names in order,
and each key's value is the conversion of the raw value at that key's
last occurrence. -/
theorem rowToJsonGo_spec (raw : List SqlValue) (cols : List String) :
    ∀ (idx : Nat) (m : List (String × JValue)),
    idx + cols.length ≤ raw.length →
    ∃ m', rowToJsonGo raw cols idx m = .ok m'
      ∧ mapKeys m' = mapKeys m
          ++ (firstDedup cols).filter (fun k => decide (k ∉ mapKeys m))
      ∧ (∀ k, lastIdxIn cols k = none → lookupField m' k = lookupField m k)
      ∧ (∀ k j, lastIdxIn cols k = some j →
          lookupField m' k = (raw[idx + j]?).map sqlValueToJson) := by
  induction cols with
  | nil =>
    intro idx m h
    refine ⟨m, rfl, by simp [firstDedup], fun k _ => rfl, fun k j hj => ?_⟩
    simp [lastIdxIn] at hj
  | cons c rest ih =>
    intro idx m h
    have hidx : idx < raw.length := by
      simp only [List.length_cons] at h
      omega
    have hv : raw[idx]? = some raw[idx] := List.getElem?_eq_getElem hidx
    obtain ⟨m', hrun, hkeys, hnone, hsome⟩ :=
      ih (idx + 1) (mapInsert m c (sqlValueToJson raw[idx]))
        (by simp only [List.length_cons] at h; omega)
    refine ⟨m', ?_, ?_, ?_, ?_⟩
    · simp only [rowToJsonGo, hv]
      exact hrun
    · rw [hkeys, firstDedup, firstDedup_filter]
      by_cases hc : c ∈ mapKeys m
      · rw [mapKeys_mapInsert_mem m c _ hc,
          List.filter_cons_of_neg (by simp [hc]), List.filter_filter]
        refine congrArg (mapKeys m ++ ·) (List.filter_congr fun a _ => ?_)
        by_cases hac : a = c
        · simp [hac, hc]
        · simp [bne_iff_ne.mpr hac]
      · rw [mapKeys_mapInsert_not_mem m c _ hc,
          List.filter_cons_of_pos (by simp [hc]), List.filter_filter,
          List.append_assoc, List.singleton_append]
        refine congrArg (mapKeys m ++ ·) (congrArg (c :: ·)
          (List.filter_congr fun a _ => ?_))
        by_cases hac : a = c
        · simp [hac, hc]
        · by_cases ham : a ∈ mapKeys m <;> simp [bne_iff_ne.mpr hac, hac, ham]
    · intro k hk
      simp only [lastIdxIn] at hk
      rcases hr : lastIdxIn rest k with _ | j
      · rw [hr] at hk
        by_cases hck : c = k
        · rw [if_pos hck] at hk
          cases hk
        · rw [hnone k hr,
            lookupField_mapInsert_ne m c _ k (fun e => hck e.symm)]
      · rw [hr] at hk
        cases hk
    · intro k j hk
      simp only [lastIdxIn] at hk
      rcases hr : lastIdxIn rest k with _ | j'
      · rw [hr] at hk
        by_cases hck : c = k
        · rw [if_pos hck] at hk
          cases hk
          subst hck
          rw [hnone c hr, lookupField_mapInsert_self m c (sqlValueToJson raw[idx]),
            Nat.add_zero, hv]
          rfl
        · rw [if_neg hck] at hk
          cases hk
      · rw [hr] at hk
        cases hk
        rw [show idx + (j' + 1) = idx + 1 + j' by omega]
        exact hsome k j' hr

/-- C7: `row_to_json` converts every column value totally (the only
fallible step is the raw index fetch, which succeeds whenever the row is
at least as wide as the column-name list): a non-finite native float
becomes a sentinel number rather than an error, and a blob of `n` bytes
becomes the string `"[BLOB:<n> bytes]"`.  The resulting object's keys are
the column names in column order (first occurrence), and a repeated
column name holds the conversion of its last occurrence's value
(last-write-wins). -/
theorem C7_row_to_json_total_ordered :
    (∀ (raw : List SqlValue) (cols : List String), cols.length ≤ raw.length →
      ∃ m', row_to_json raw cols = .ok (.obj m')
        ∧ mapKeys m' = firstDedup cols
        ∧ (∀ k j, lastIdxIn cols k = some j →
            lookupField m' k = (raw[j]?).map sqlValueToJson)
        ∧ (∀ k, lastIdxIn cols k = none → lookupField m' k = none))
  ∧ (∀ f : F64, (∀ q, f ≠ F64.finite q) → ∃ n, sqlValueToJson (.real f) = .num n)
  ∧ (∀ b : List UInt8,
      sqlValueToJson (.blob b) = .str ("[BLOB:" ++ toString b.length ++ " bytes]")) := by
  refine ⟨?_, ?_, fun b => rfl⟩
  · intro raw cols h
    obtain ⟨m', hrun, hkeys, hnone, hsome⟩ :=
      rowToJsonGo_spec raw cols 0 [] (by simpa using h)
    refine ⟨m', ?_, by simpa [mapKeys_nil] using hkeys,
      fun k j hj => by simpa using hsome k j hj,
      fun k hk => hnone k hk⟩
    rw [row_to_json, hrun]
    rfl
  · intro f hf
    match f with
    | .finite q => exact absurd rfl (hf q)
    | .nan => exact ⟨.int 0, rfl⟩
    | .inf => exact ⟨.int 0, rfl⟩
    | .neginf => exact ⟨.int 0, rfl⟩

theorem C7_row_to_json_total_ordered_witness :
    (∃ m', row_to_json [.integer 1, .text "x", .integer 7] ["a", "b", "a"]
        = .ok (.obj m')) ∧
    (∃ n, sqlValueToJson (.real .nan) = .num n) := by
  obtain ⟨m', hrun, -, -, -⟩ :=
    C7_row_to_json_total_ordered.1 [.integer 1, .text "x", .integer 7]
      ["a", "b", "a"] (by decide)
  exact ⟨⟨m', hrun⟩,
    C7_row_to_json_total_ordered.2.1 .nan (fun q h => F64.noConfusion h)⟩

/-! ### Transaction control flow: C1, C3, C10 -/

/-- The result slot a transaction member of the given request object must
produce: an array for a SELECT-classified statement, null otherwise. -/
def stmtShape (q r : JValue) : Prop :=
  ∃ sql, extractSql q = some sql ∧
    ((isSelectSql sql = true ∧ ∃ rows, r = .arr rows) ∨
     (isSelectSql sql = false ∧ r = .null))

theorem ok_bind {α β : Type} (a : α) (f : α → Except String β) :
    (Except.ok a : Except String α).bind f = f a := rfl

theorem error_bind {α β : Type} (e : String) (f : α → Except String β) :
    (Except.error e : Except String α).bind f = .error e := rfl

theorem mapError_ok {α : Type} (g : String → String) (a : α) :
    (Except.ok a : Except String α).mapError g = .ok a := rfl

theorem mapError_error {α : Type} (g : String → String) (e : String) :
    (Except.error e : Except String α).mapError g = .error (g e) := rfl

theorem runQueries_nil {σ : Type} (E : Engine σ) (s : σ) :
    runQueries E s [] = .ok (s, []) := rfl

theorem runQueries_cons {σ : Type} (E : Engine σ) (s : σ) (q : JValue)
    (qs : List JValue) :
    runQueries E s (q :: qs) =
      (runStmt E s q).bind fun p =>
        (runQueries E p.1 qs).bind fun p' => .ok (p'.1, p.2 :: p'.2) := rfl

theorem db_transactionAux_eq {σ : Type} (E : Engine σ) (s0 : σ)
    (qs : List JValue) :
    db_transactionAux E s0 qs =
      ((E.begin s0).mapError (fun e => "Transaction start error: " ++ e)).bind
        fun _ => (runQueries E s0 qs).bind fun p =>
          ((E.commit p.1).mapError
            (fun e => "Transaction commit error: " ++ e)).bind
            fun s2 => .ok (s2, p.2) := rfl

theorem runQueries_append_error {σ : Type} (E : Engine σ) {s0 s' : σ}
    {pre rs : List JValue} (h : runQueries E s0 pre = .ok (s', rs))
    (q : JValue) (post : List JValue) {e : String}
    (he : runStmt E s' q = .error e) :
    runQueries E s0 (pre ++ q :: post) = .error e := by
  induction pre generalizing s0 rs with
  | nil =>
    rw [runQueries_nil] at h
    cases h
    rw [List.nil_append, runQueries_cons, he]
    rfl
  | cons p pre ih =>
    rw [runQueries_cons] at h
    obtain ⟨⟨s1, r⟩, hp, hrest⟩ := bind_eq_ok h
    obtain ⟨⟨s2, rs'⟩, hq2, hok⟩ := bind_eq_ok hrest
    cases hok
    rw [List.cons_append, runQueries_cons, hp]
    show (runQueries E s1 (pre ++ q :: post)).bind _ = _
    rw [ih hq2]
    rfl

theorem runStmt_shape {σ : Type} {E : Engine σ} {s s' : σ} {q r : JValue}
    (h : runStmt E s q = .ok (s', r)) : stmtShape q r := by
  unfold runStmt at h
  cases hx : extractSql q with
  | none =>
    rw [hx] at h
    cases h
  | some sql =>
    rw [hx] at h
    refine ⟨sql, hx, ?_⟩
    unfold runStmtCore at h
    obtain ⟨cols, hprep, h2⟩ := bind_eq_ok h
    by_cases hsel : isSelectSql sql
    · rw [if_pos hsel] at h2
      obtain ⟨rows, hrows, h3⟩ := bind_eq_ok h2
      obtain ⟨qres, hqres, h4⟩ := bind_eq_ok h3
      cases h4
      exact .inl ⟨hsel, qres, rfl⟩
    · rw [if_neg hsel] at h2
      obtain ⟨p, hexec, h3⟩ := bind_eq_ok h2
      cases h3
      exact .inr ⟨by simpa using hsel, rfl⟩

theorem runQueries_shape {σ : Type} {E : Engine σ} :
    ∀ {qs : List JValue} {s s' : σ} {results : List JValue},
    runQueries E s qs = .ok (s', results) → List.Forall₂ stmtShape qs results := by
  intro qs
  induction qs with
  | nil =>
    intro s s' res h
    rw [runQueries_nil] at h
    cases h
    exact .nil
  | cons q qs ih =>
    intro s s' res h
    rw [runQueries_cons] at h
    obtain ⟨⟨s1, r⟩, hq, h2⟩ := bind_eq_ok h
    obtain ⟨⟨s2, rs⟩, hrest, h3⟩ := bind_eq_ok h2
    cases h3
    exact .cons (runStmt_shape hq) (ih hrest)

/-- A trivially succeeding engine over `Nat` states, used to witness the
theorems at concrete inputs. -/
def okEngine : Engine Nat where
  prepare := fun _ _ => .ok []
  query := fun _ _ _ => .ok []
  exec := fun s _ _ => .ok (s + 1, 1)
  execBatch := fun s _ => .ok (s + 1)
  lastInsertRowid := fun _ => 0
  begin := fun _ => .ok ()
  commit := fun s => .ok s

/-- An engine whose statement preparation always fails, exercising the
error paths at concrete inputs. -/
def badPrepareEngine : Engine Nat where
  prepare := fun _ _ => .error "near BOGUS: syntax error"
  query := fun _ _ _ => .ok []
  exec := fun s _ _ => .ok (s, 0)
  execBatch := fun s _ => .ok s
  lastInsertRowid := fun _ => 0
  begin := fun _ => .ok ()
  commit := fun s => .ok s

/-- C1: transaction atomicity.  (i) Whenever `db_transaction` reports an
error, the database state visible after the call is the state from before
the transaction began (rollback; nothing is committed).  (ii) If every member
before `q` succeeds and `q` fails, the call fails with exactly `q`'s
error, the state reverts to the initial one, and the result does not
depend on the members after `q` — they are never executed.  (iii) A
successful call means every member ran to completion and the final state
is the one `commit` accepted. -/
theorem C1_transaction_atomicity :
    (∀ (σ : Type) (E : Engine σ) (s0 : σ) (qs : List JValue) (e : String),
        (db_transaction E s0 qs).2 = .error e → (db_transaction E s0 qs).1 = s0)
  ∧ (∀ (σ : Type) (E : Engine σ) (s0 s' : σ) (pre rs : List JValue)
        (q : JValue) (post : List JValue) (e : String),
        E.begin s0 = .ok () → runQueries E s0 pre = .ok (s', rs) →
        runStmt E s' q = .error e →
        db_transaction E s0 (pre ++ q :: post) = (s0, .error e))
  ∧ (∀ (σ : Type) (E : Engine σ) (s0 : σ) (qs : List JValue)
        (r : DatabaseResult (List JValue)),
        (db_transaction E s0 qs).2 = .ok r →
        ∃ s1 results, runQueries E s0 qs = .ok (s1, results)
          ∧ E.commit s1 = .ok (db_transaction E s0 qs).1
          ∧ r = DatabaseResult.mkSuccess results) := by
  refine ⟨?_, ?_, ?_⟩
  · intro σ E s0 qs e h
    rcases haux : db_transactionAux E s0 qs with e' | ⟨s', results⟩
    · simp [db_transaction, haux]
    · simp [db_transaction, haux] at h
  · intro σ E s0 s' pre rs q post e hb hpre hq
    have hrun : runQueries E s0 (pre ++ q :: post) = .error e :=
      runQueries_append_error E hpre q post hq
    have haux : db_transactionAux E s0 (pre ++ q :: post) = .error e := by
      rw [db_transactionAux_eq, hb, mapError_ok, ok_bind, hrun, error_bind]
    simp [db_transaction, haux]
  · intro σ E s0 qs r h
    rcases haux : db_transactionAux E s0 qs with e | p
    · simp [db_transaction, haux] at h
    · have hr : r = DatabaseResult.mkSuccess p.2 := by
        simp [db_transaction, haux] at h
        exact h.symm
      have h1 : (db_transaction E s0 qs).1 = p.1 := by
        simp [db_transaction, haux]
      rw [db_transactionAux_eq] at haux
      obtain ⟨u, hbeg, h2⟩ := bind_eq_ok haux
      obtain ⟨p', hrunq, h3⟩ := bind_eq_ok h2
      obtain ⟨s2, hcommit, h4⟩ := bind_eq_ok h3
      have hps : p.1 = s2 ∧ p.2 = p'.2 := by
        injection h4 with hpair
        exact ⟨(congrArg Prod.fst hpair).symm, (congrArg Prod.snd hpair).symm⟩
      refine ⟨p'.1, p'.2, hrunq, ?_, by rw [hr, hps.2]⟩
      rw [h1, hps.1]
      exact mapError_eq_ok hcommit

theorem C1_transaction_atomicity_witness :
    db_transaction okEngine 0 [JValue.obj []]
      = (0, .error "Missing 'sql' in query object") :=
  C1_transaction_atomicity.2.1 Nat okEngine 0 0 [] [] (JValue.obj []) []
    "Missing 'sql' in query object" rfl rfl rfl

/-- C3: a successful `db_transaction` returns one result per submitted
statement in submission order — an array of row objects for each
SELECT-classified statement (leading whitespace trimmed, case-insensitive
prefix test) and null for every other statement — and the empty batch
commits a no-op and returns the empty sequence. -/
theorem C3_transaction_result_shape :
    (∀ (σ : Type) (E : Engine σ) (s0 : σ) (qs : List JValue)
        (r : DatabaseResult (List JValue)),
        (db_transaction E s0 qs).2 = .ok r →
        ∃ results, r = DatabaseResult.mkSuccess results
          ∧ results.length = qs.length
          ∧ List.Forall₂ stmtShape qs results)
  ∧ (∀ (σ : Type) (E : Engine σ) (s0 s1 : σ),
        E.begin s0 = .ok () → E.commit s0 = .ok s1 →
        db_transaction E s0 [] = (s1, .ok (DatabaseResult.mkSuccess []))) := by
  constructor
  · intro σ E s0 qs r h
    rcases haux : db_transactionAux E s0 qs with e | p
    · simp [db_transaction, haux] at h
    · have hr : r = DatabaseResult.mkSuccess p.2 := by
        simp [db_transaction, haux] at h
        exact h.symm
      rw [db_transactionAux_eq] at haux
      obtain ⟨u, hbeg, h2⟩ := bind_eq_ok haux
      obtain ⟨p', hrunq, h3⟩ := bind_eq_ok h2
      obtain ⟨s2, hcommit, h4⟩ := bind_eq_ok h3
      have hps : p.2 = p'.2 := by
        injection h4 with hpair
        exact (congrArg Prod.snd hpair).symm
      have hshape := runQueries_shape hrunq
      exact ⟨p'.2, by rw [hr, hps], (List.Forall₂.length_eq hshape).symm, hshape⟩
  · intro σ E s0 s1 hb hc
    have haux : db_transactionAux E s0 [] = .ok (s1, []) := by
      rw [db_transactionAux_eq, hb, mapError_ok, ok_bind, runQueries_nil,
        ok_bind, hc, mapError_ok, ok_bind]
    simp [db_transaction, haux]

theorem C3_transaction_result_shape_witness :
    db_transaction okEngine 0 [] = (0, .ok (DatabaseResult.mkSuccess [])) :=
  C3_transaction_result_shape.2 Nat okEngine 0 0 rfl rfl

/-- C10: in `db_transaction`, a member whose `params` key is absent or not
an array runs with the empty parameter list instead of failing, while a
member whose `sql` key is absent or not a string fails the whole call with
the fixed error `"Missing 'sql' in query object"`. -/
theorem C10_member_decoding :
    (∀ (σ : Type) (E : Engine σ) (s : σ) (q : JValue),
        extractSql q = none →
        runStmt E s q = .error "Missing 'sql' in query object")
  ∧ (∀ (σ : Type) (E : Engine σ) (s0 : σ) (q : JValue) (qs : List JValue),
        E.begin s0 = .ok () → extractSql q = none →
        db_transaction E s0 (q :: qs)
          = (s0, .error "Missing 'sql' in query object"))
  ∧ (∀ q : JValue, (q.getKey "params").bind JValue.asArr = none →
        extractParams q = [])
  ∧ (∀ (σ : Type) (E : Engine σ) (s : σ) (q : JValue) (sql : String),
        extractSql q = some sql →
        (q.getKey "params").bind JValue.asArr = none →
        runStmt E s q = runStmtCore E s sql []) := by
  have hstmt : ∀ (σ : Type) (E : Engine σ) (s : σ) (q : JValue),
      extractSql q = none →
      runStmt E s q = .error "Missing 'sql' in query object" := by
    intro σ E s q h
    unfold runStmt
    rw [h]
  refine ⟨hstmt, ?_, ?_, ?_⟩
  · intro σ E s0 q qs hb h
    have hrun : runQueries E s0 ([] ++ q :: qs)
        = .error "Missing 'sql' in query object" :=
      runQueries_append_error E (runQueries_nil E s0) q qs (hstmt σ E s0 q h)
    have haux : db_transactionAux E s0 (q :: qs)
        = .error "Missing 'sql' in query object" := by
      rw [db_transactionAux_eq, hb, mapError_ok, ok_bind,
        ← List.nil_append (q :: qs), hrun, error_bind]
    simp [db_transaction, haux]
  · intro q h
    unfold extractParams
    rw [h]
    rfl
  · intro σ E s q sql hsql hp
    unfold runStmt
    rw [hsql]
    unfold extractParams
    rw [hp]
    rfl

theorem C10_member_decoding_witness :
    db_transaction okEngine 0 [JValue.obj [("params", .str "oops")]]
      = (0, .error "Missing 'sql' in query object") ∧
    extractParams (JValue.obj [("sql", .str "DELETE FROM t"), ("params", .str "oops")])
      = [] :=
  ⟨C10_member_decoding.2.1 Nat okEngine 0 (JValue.obj [("params", .str "oops")]) []
      rfl rfl,
   C10_member_decoding.2.2.1 (JValue.obj [("sql", .str "DELETE FROM t"), ("params", .str "oops")])
      rfl⟩

/-! ### C2: how failures cross the command boundary -/

theorem collectRows_cons (cols : List String) (r : Except String (List SqlValue))
    (rest : List (Except String (List SqlValue))) :
    collectRows cols (r :: rest) = (decodeRow cols r).bind fun v =>
      (collectRows cols rest).bind fun vs => .ok (v :: vs) := rfl

theorem decodeRow_error_ne {cols : List String} {r : Except String (List SqlValue)}
    {e : String} (h : decodeRow cols r = .error e) : e ≠ "" := by
  unfold decodeRow at h
  obtain ⟨e', -, he⟩ := mapError_eq_error h
  subst he
  exact appendLeft_ne_empty _ _ (by decide)

theorem collectRows_error_ne {cols : List String} :
    ∀ {rows : List (Except String (List SqlValue))} {e : String},
    collectRows cols rows = .error e → e ≠ "" := by
  intro rows
  induction rows with
  | nil =>
    intro e h
    cases h
  | cons r rest ih =>
    intro e h
    rw [collectRows_cons] at h
    rcases bind_eq_error h with h1 | ⟨v, -, h2⟩
    · exact decodeRow_error_ne h1
    · rcases bind_eq_error h2 with h3 | ⟨vs, -, h4⟩
      · exact ih h3
      · cases h4

theorem runStmtCore_error_ne {σ : Type} {E : Engine σ} {s : σ}
    {sql : String} {params : List JValue} {e : String}
    (h : runStmtCore E s sql params = .error e) : e ≠ "" := by
  unfold runStmtCore at h
  rcases bind_eq_error h with h1 | ⟨cols, -, h2⟩
  · obtain ⟨e', -, he⟩ := mapError_eq_error h1
    subst he
    exact appendLeft_ne_empty _ _ (by decide)
  · by_cases hsel : isSelectSql sql
    · rw [if_pos hsel] at h2
      rcases bind_eq_error h2 with h3 | ⟨rows, -, h4⟩
      · obtain ⟨e', -, he⟩ := mapError_eq_error h3
        subst he
        exact appendLeft_ne_empty _ _ (by decide)
      · rcases bind_eq_error h4 with h5 | ⟨qr, -, h6⟩
        · exact collectRows_error_ne h5
        · cases h6
    · rw [if_neg hsel] at h2
      rcases bind_eq_error h2 with h3 | ⟨p, -, h4⟩
      · obtain ⟨e', -, he⟩ := mapError_eq_error h3
        subst he
        exact appendLeft_ne_empty _ _ (by decide)
      · cases h4

theorem runStmt_error_ne {σ : Type} {E : Engine σ} {s : σ} {q : JValue}
    {e : String} (h : runStmt E s q = .error e) : e ≠ "" := by
  unfold runStmt at h
  cases hx : extractSql q with
  | none =>
    rw [hx] at h
    cases h
    decide
  | some sql =>
    rw [hx] at h
    exact runStmtCore_error_ne h

theorem runQueries_error_ne {σ : Type} {E : Engine σ} :
    ∀ {qs : List JValue} {s : σ} {e : String},
    runQueries E s qs = .error e → e ≠ "" := by
  intro qs
  induction qs with
  | nil =>
    intro s e h
    cases h
  | cons q qs ih =>
    intro s e h
    rw [runQueries_cons] at h
    rcases bind_eq_error h with h1 | ⟨p, -, h2⟩
    · exact runStmt_error_ne h1
    · rcases bind_eq_error h2 with h3 | ⟨p', -, h4⟩
      · exact ih h3
      · cases h4

theorem db_transactionAux_error_ne {σ : Type} {E : Engine σ} {s0 : σ}
    {qs : List JValue} {e : String}
    (h : db_transactionAux E s0 qs = .error e) : e ≠ "" := by
  rw [db_transactionAux_eq] at h
  rcases bind_eq_error h with h1 | ⟨u, -, h2⟩
  · obtain ⟨e', -, he⟩ := mapError_eq_error h1
    subst he
    exact appendLeft_ne_empty _ _ (by decide)
  · rcases bind_eq_error h2 with h3 | ⟨p, -, h4⟩
    · exact runQueries_error_ne h3
    · rcases bind_eq_error h4 with h5 | ⟨s2, -, h6⟩
      · obtain ⟨e', -, he⟩ := mapError_eq_error h5
        subst he
        exact appendLeft_ne_empty _ _ (by decide)
      · cases h6

/-- C2 counterexample: on a statement whose preparation fails, `db_query`
returns the failure on the command's `Err` channel (the string the Tauri
boundary rejects the invocation with), not an `Ok` carrying a
`{success:false, error:...}` envelope.  `DatabaseResult::error`, the
envelope constructor the claim describes, is dead code. -/
theorem C2_counterexample :
    db_query badPrepareEngine 0 "BOGUS" []
      = .error "SQL prepare error: near BOGUS: syntax error" ∧
    (db_query badPrepareEngine 0 "BOGUS" []).isOk = false :=
  ⟨rfl, rfl⟩

/-- C2 (amended): every data-access command surfaces every internal
failure as the call's top-level error with a non-empty message, and
returns an envelope only on success — that envelope always being the
`success:true` one with data present and no error field.  No command ever
returns a `{success:false, error:...}` envelope. -/
theorem C2_error_channel :
    (∀ (σ : Type) (E : Engine σ) (s : σ) (sql : String) (ps : List JValue),
        (∀ r, db_query E s sql ps = .ok r →
          r.success = true ∧ r.error = none ∧ ∃ d, r.data = some d)
      ∧ (∀ e, db_query E s sql ps = .error e → e ≠ ""))
  ∧ (∀ (σ : Type) (E : Engine σ) (s : σ) (sql : String) (ps : List JValue),
        (∀ r, (db_execute E s sql ps).2 = .ok r →
          r.success = true ∧ r.error = none ∧ ∃ d, r.data = some d)
      ∧ (∀ e, (db_execute E s sql ps).2 = .error e → e ≠ ""))
  ∧ (∀ (σ : Type) (E : Engine σ) (s : σ) (sql : String),
        (∀ r, (db_exec E s sql).2 = .ok r →
          r.success = true ∧ r.error = none ∧ ∃ d, r.data = some d)
      ∧ (∀ e, (db_exec E s sql).2 = .error e → e ≠ ""))
  ∧ (∀ (σ : Type) (E : Engine σ) (s0 : σ) (qs : List JValue),
        (∀ r, (db_transaction E s0 qs).2 = .ok r →
          r.success = true ∧ r.error = none ∧ ∃ d, r.data = some d)
      ∧ (∀ e, (db_transaction E s0 qs).2 = .error e → e ≠ "")) := by
  refine ⟨?_, ?_, ?_, ?_⟩
  · intro σ E s sql ps
    constructor
    · intro r h
      unfold db_query at h
      obtain ⟨cols, -, h2⟩ := bind_eq_ok h
      obtain ⟨rows, -, h4⟩ := bind_eq_ok h2
      obtain ⟨results, -, h6⟩ := bind_eq_ok h4
      cases h6
      exact ⟨rfl, rfl, _, rfl⟩
    · intro e h
      unfold db_query at h
      rcases bind_eq_error h with h1 | ⟨cols, -, h2⟩
      · obtain ⟨e', -, he⟩ := mapError_eq_error h1
        subst he
        exact appendLeft_ne_empty _ _ (by decide)
      · rcases bind_eq_error h2 with h3 | ⟨rows, -, h4⟩
        · obtain ⟨e', -, he⟩ := mapError_eq_error h3
          subst he
          exact appendLeft_ne_empty _ _ (by decide)
        · rcases bind_eq_error h4 with h5 | ⟨res, -, h6⟩
          · exact collectRows_error_ne h5
          · cases h6
  · intro σ E s sql ps
    constructor
    · intro r h
      unfold db_execute at h
      rcases hp : (E.prepare s sql).mapError
          (fun e => "SQL prepare error: " ++ e) with e | cols
      · rw [hp] at h
        cases h
      · rw [hp] at h
        rcases hx : (E.exec s sql (json_to_params ps)).mapError
            (fun e => "SQL execute error: " ++ e) with e | ⟨s', ch⟩
        · rw [hx] at h
          cases h
        · rw [hx] at h
          cases h
          exact ⟨rfl, rfl, _, rfl⟩
    · intro e h
      unfold db_execute at h
      rcases hp : (E.prepare s sql).mapError
          (fun e => "SQL prepare error: " ++ e) with e' | cols
      · rw [hp] at h
        cases h
        obtain ⟨e'', -, he⟩ := mapError_eq_error hp
        subst he
        exact appendLeft_ne_empty _ _ (by decide)
      · rw [hp] at h
        rcases hx : (E.exec s sql (json_to_params ps)).mapError
            (fun e => "SQL execute error: " ++ e) with e' | ⟨s', ch⟩
        · rw [hx] at h
          cases h
          obtain ⟨e'', -, he⟩ := mapError_eq_error hx
          subst he
          exact appendLeft_ne_empty _ _ (by decide)
        · rw [hx] at h
          cases h
  · intro σ E s sql
    constructor
    · intro r h
      unfold db_exec at h
      rcases hx : E.execBatch s sql with e | s'
      · rw [hx] at h
        cases h
      · rw [hx] at h
        cases h
        exact ⟨rfl, rfl, _, rfl⟩
    · intro e h
      unfold db_exec at h
      rcases hx : E.execBatch s sql with e' | s'
      · rw [hx] at h
        cases h
        exact appendLeft_ne_empty _ _ (by decide)
      · rw [hx] at h
        cases h
  · intro σ E s0 qs
    constructor
    · intro r h
      rcases haux : db_transactionAux E s0 qs with e | p
      · simp [db_transaction, haux] at h
      · simp [db_transaction, haux] at h
        rw [← h]
        exact ⟨rfl, rfl, _, rfl⟩
    · intro e h
      rcases haux : db_transactionAux E s0 qs with e' | p
      · simp [db_transaction, haux] at h
        exact h ▸ db_transactionAux_error_ne haux
      · simp [db_transaction, haux] at h

theorem C2_error_channel_witness :
    ((DatabaseResult.mkSuccess ([] : List JValue)).success = true
      ∧ (DatabaseResult.mkSuccess ([] : List JValue)).error = none
      ∧ ∃ d, (DatabaseResult.mkSuccess ([] : List JValue)).data = some d)
    ∧ "SQL exec error: disk I/O error" ≠ "" := by
  constructor
  · exact (C2_error_channel.1 Nat okEngine 0 "SELECT 1" []).1 _ rfl
  · exact (C2_error_channel.2.2.1 Nat
      { okEngine with execBatch := fun _ _ => .error "disk I/O error" } 0 "X").2
      _ rfl

/-! ### C5, C8: connection manager -/

theorem openSequence_eq {κ : Type} (env : ConnEnv κ) :
    openSequence env =
      (env.appDataDir.mapError
        (fun e => "Could not get app data directory: " ++ e)).bind
        fun appDataDir =>
          ((env.createDirAll appDataDir).mapError
            (fun e => "Could not create app data directory: " ++ e)).bind
            fun _ =>
              ((env.openDb (appDataDir ++ "/database.db")).mapError
                (fun e => "Could not open database: " ++ e)).bind fun conn =>
                ((env.pragmaJournalModeWal conn).mapError
                  (fun e => "Could not set WAL mode: " ++ e)).bind
                  fun journalMode =>
                    if journalMode.data.map Char.toLower ≠ "wal".data then
                      .error ("Failed to set WAL mode, got: " ++ journalMode)
                    else
                      ((env.pragmaForeignKeysOn conn).mapError
                        (fun e => "Could not enable foreign keys: " ++ e)).bind
                        fun _ => .ok conn := rfl

/-- A fully-succeeding environment whose cache-size pragma fails, used as
a concrete witness input. -/
def okConnEnv : ConnEnv Unit where
  appDataDir := .ok "/data"
  createDirAll := fun _ => .ok ()
  openDb := fun _ => .ok ()
  pragmaJournalModeWal := fun _ => .ok "wal"
  pragmaForeignKeysOn := fun _ => .ok 0
  pragmaCacheSize := fun _ => .error "cache failure"

/-- An environment whose engine keeps reporting `delete` journaling. -/
def badWalConnEnv : ConnEnv Unit where
  appDataDir := .ok "/data"
  createDirAll := fun _ => .ok ()
  openDb := fun _ => .ok ()
  pragmaJournalModeWal := fun _ => .ok "delete"
  pragmaForeignKeysOn := fun _ => .ok 0
  pragmaCacheSize := fun _ => .ok 0

/-- C5: an already-stored connection is returned as-is — for every
environment, so no pragma or filesystem operation is consulted again and
no second connection is opened; a failed initialization leaves the cell
empty, so the next call re-attempts the full open sequence; a successful
initialization stores the connection it returns. -/
theorem C5_connection_singleton :
    (∀ (κ : Type) (env : ConnEnv κ) (c : κ),
        get_connection env (some c) = (.ok c, some c))
  ∧ (∀ (κ : Type) (env : ConnEnv κ) (e : String),
        (get_connection env none).1 = .error e →
        (get_connection env none).2 = none)
  ∧ (∀ (κ : Type) (env : ConnEnv κ) (c : κ),
        (get_connection env none).1 = .ok c →
        (get_connection env none).2 = some c) := by
  refine ⟨fun κ env c => rfl, ?_, ?_⟩
  · intro κ env e h
    rcases ho : openSequence env with e' | c'
    · simp [get_connection, ho]
    · simp [get_connection, ho] at h
  · intro κ env c h
    rcases ho : openSequence env with e' | c'
    · simp [get_connection, ho] at h
    · simp [get_connection, ho] at h ⊢
      exact h

theorem C5_connection_singleton_witness :
    get_connection okConnEnv (some ()) = (.ok (), some ()) ∧
    (get_connection okConnEnv none).2 = some () :=
  ⟨C5_connection_singleton.1 Unit okConnEnv (),
   C5_connection_singleton.2.2 Unit okConnEnv () rfl⟩

/-- C8: during initialization, a reported journal mode other than `wal`
(compared after ASCII lowercasing) fails the call, a foreign-key pragma
failure fails the call — in both cases nothing is stored — while the
cache-size pragma's outcome is never consulted: initialization succeeds
whatever it returns, and the whole of `get_connection` is unchanged under
replacing it. -/
theorem C8_pragma_policy :
    (∀ (κ : Type) (env : ConnEnv κ) (c : κ) (dir m : String),
        env.appDataDir = .ok dir → env.createDirAll dir = .ok () →
        env.openDb (dir ++ "/database.db") = .ok c →
        env.pragmaJournalModeWal c = .ok m →
        m.data.map Char.toLower ≠ "wal".data →
        get_connection env none
          = (.error ("Failed to set WAL mode, got: " ++ m), none))
  ∧ (∀ (κ : Type) (env : ConnEnv κ) (c : κ) (dir m e : String),
        env.appDataDir = .ok dir → env.createDirAll dir = .ok () →
        env.openDb (dir ++ "/database.db") = .ok c →
        env.pragmaJournalModeWal c = .ok m →
        m.data.map Char.toLower = "wal".data →
        env.pragmaForeignKeysOn c = .error e →
        get_connection env none
          = (.error ("Could not enable foreign keys: " ++ e), none))
  ∧ (∀ (κ : Type) (env : ConnEnv κ) (c : κ) (dir m : String) (n : Nat),
        env.appDataDir = .ok dir → env.createDirAll dir = .ok () →
        env.openDb (dir ++ "/database.db") = .ok c →
        env.pragmaJournalModeWal c = .ok m →
        m.data.map Char.toLower = "wal".data →
        env.pragmaForeignKeysOn c = .ok n →
        get_connection env none = (.ok c, some c))
  ∧ (∀ (κ : Type) (env : ConnEnv κ) (f g : κ → Except String Nat)
        (st : Option κ),
        get_connection { env with pragmaCacheSize := f } st
          = get_connection { env with pragmaCacheSize := g } st) := by
  refine ⟨?_, ?_, ?_, ?_⟩
  · intro κ env c dir m hdir hcreate hopen hwal hne
    have ho : openSequence env = .error ("Failed to set WAL mode, got: " ++ m) := by
      rw [openSequence_eq, hdir, mapError_ok, ok_bind, hcreate, mapError_ok,
        ok_bind, hopen, mapError_ok, ok_bind, hwal, mapError_ok, ok_bind,
        if_pos hne]
    simp [get_connection, ho]
  · intro κ env c dir m e hdir hcreate hopen hwal heq hfk
    have ho : openSequence env
        = .error ("Could not enable foreign keys: " ++ e) := by
      rw [openSequence_eq, hdir, mapError_ok, ok_bind, hcreate, mapError_ok,
        ok_bind, hopen, mapError_ok, ok_bind, hwal, mapError_ok, ok_bind,
        if_neg (fun hcon => hcon heq), hfk, mapError_error, error_bind]
    simp [get_connection, ho]
  · intro κ env c dir m n hdir hcreate hopen hwal heq hfk
    have ho : openSequence env = .ok c := by
      rw [openSequence_eq, hdir, mapError_ok, ok_bind, hcreate, mapError_ok,
        ok_bind, hopen, mapError_ok, ok_bind, hwal, mapError_ok, ok_bind,
        if_neg (fun hcon => hcon heq), hfk, mapError_ok, ok_bind]
    simp [get_connection, ho]
  · intro κ env f g st
    cases st with
    | some c => rfl
    | none => rfl

theorem C8_pragma_policy_witness :
    get_connection badWalConnEnv none
      = (.error "Failed to set WAL mode, got: delete", none) ∧
    get_connection okConnEnv none = (.ok (), some ()) :=
  ⟨C8_pragma_policy.1 Unit badWalConnEnv () "/data" "delete" rfl rfl rfl rfl
      (by decide),
   C8_pragma_policy.2.2.1 Unit okConnEnv () "/data" "wal" 0 rfl rfl rfl rfl
      (by decide) rfl⟩

end Noiddea
